import Mathlib

/-!
Verification of the shield resilience library: a shallow embedding of the
circuit breaker, retry engine, fallback policy, registry and circuit
composition, with theorems settling the specified behavioural claims.

Time is modelled as an integer count of milliseconds on the monotonic
(steady) clock; C++ `int` counters are modelled as `Int`.
-/

namespace Shield

/-- The three states of `shield::circuit_breaker::state`
(closed / open / half_open). -/
inductive BreakerState
  | closed
  | opened
  | half_open
deriving DecidableEq, Repr

/-- State of one `shield::detail::circuit_breaker`
(src/src/circuit/circuitbreaker.cpp): name, threshold, open timeout in
milliseconds, failure counter, state and the last failure instant on the
monotonic clock. -/
structure CircuitBreaker where
  name : String
  failureThreshold : Int
  timeout : Int
  failureCount : Int
  state : BreakerState
  lastFailureTime : Int
deriving DecidableEq, Repr

/-- The constructor `circuit_breaker(name, failureThreshold, timeout)`:
failure count 0, state closed, last failure instant default-initialised. -/
def mkBreaker (name : String) (failureThreshold : Int) (timeout : Int) :
    CircuitBreaker :=
  { name := name
    failureThreshold := failureThreshold
    timeout := timeout
    failureCount := 0
    state := .closed
    lastFailureTime := 0 }

/-- `detail::circuit_breaker::on_success` (circuitbreaker.cpp lines 34-43):
reset the failure count to 0 and, when half-open, transition to closed. -/
def on_success (cb : CircuitBreaker) : CircuitBreaker :=
  if cb.state = .half_open then
    { cb with failureCount := 0, state := .closed }
  else
    { cb with failureCount := 0 }

/-- `detail::circuit_breaker::on_failure` (circuitbreaker.cpp lines 45-56):
increment the failure count, stamp the last failure instant with the
monotonic now, and when the count reaches the threshold while not already
open, transition to open. -/
def on_failure (now : Int) (cb : CircuitBreaker) : CircuitBreaker :=
  if cb.failureThreshold ≤ cb.failureCount + 1 ∧ cb.state ≠ .opened then
    { cb with
      failureCount := cb.failureCount + 1
      lastFailureTime := now
      state := .opened }
  else
    { cb with
      failureCount := cb.failureCount + 1
      lastFailureTime := now }

/-- `detail::circuit_breaker::on_execute_function` (circuitbreaker.cpp
lines 58-76): when open, re-admit (transitioning to half-open) exactly when
the elapsed monotonic time strictly exceeds the timeout, else deny; in any
other state admit. Returns the admission decision and the updated state. -/
def on_execute_function (now : Int) (cb : CircuitBreaker) :
    Bool × CircuitBreaker :=
  if cb.state = .opened then
    if cb.timeout < now - cb.lastFailureTime then
      (true, { cb with state := .half_open })
    else
      (false, cb)
  else
    (true, cb)

/-- Breaker states reachable from a constructor call through the three
operations of the class. -/
inductive Reachable : CircuitBreaker → Prop
  | init (name : String) (threshold : Int) (timeout : Int) :
      Reachable (mkBreaker name threshold timeout)
  | succ {cb : CircuitBreaker} : Reachable cb → Reachable (on_success cb)
  | fail {cb : CircuitBreaker} (now : Int) :
      Reachable cb → Reachable (on_failure now cb)
  | exec {cb : CircuitBreaker} (now : Int) :
      Reachable cb → Reachable (on_execute_function now cb).2

theorem reachable_count_nonneg {cb : CircuitBreaker} (h : Reachable cb) :
    0 ≤ cb.failureCount := by
  induction h with
  | init name threshold timeout => simp [mkBreaker]
  | succ _ ih =>
      unfold on_success
      split <;> simp
  | fail now _ ih =>
      unfold on_failure
      split <;> simp <;> omega
  | exec now _ ih =>
      unfold on_execute_function
      split
      · split
        · simpa using ih
        · simpa using ih
      · simpa using ih

/-- Folding a list of report_failure calls, each stamped with its own
monotonic instant. -/
def report_failures (ts : List Int) (cb : CircuitBreaker) : CircuitBreaker :=
  ts.foldl (fun acc t => on_failure t acc) cb

theorem on_failure_count (now : Int) (cb : CircuitBreaker) :
    (on_failure now cb).failureCount = cb.failureCount + 1 ∧
      (on_failure now cb).lastFailureTime = now ∧
      (on_failure now cb).failureThreshold = cb.failureThreshold := by
  unfold on_failure
  split <;> simp

theorem on_failure_opens (now : Int) (cb : CircuitBreaker)
    (h : cb.failureThreshold ≤ cb.failureCount + 1) :
    (on_failure now cb).state = .opened := by
  unfold on_failure
  split
  · rfl
  · rename_i hn
    simp only [not_and, ne_eq, not_not] at hn
    exact hn h

theorem report_failures_opens (ts : List Int) (cb : CircuitBreaker)
    (hlen : 1 ≤ ts.length)
    (hth : cb.failureThreshold ≤ cb.failureCount + ts.length) :
    (report_failures ts cb).state = .opened := by
  induction ts generalizing cb with
  | nil => simp at hlen
  | cons t rest ih =>
      rcases rest with _ | ⟨t2, rest2⟩
      · simp only [report_failures, List.foldl]
        apply on_failure_opens
        simpa using hth
      · have hstep := on_failure_count t cb
        have : (report_failures (t2 :: rest2) (on_failure t cb)).state =
            .opened := by
          apply ih
          · simp
          · rw [hstep.1, hstep.2.2]
            simp only [List.length_cons] at hth ⊢
            push_cast at hth ⊢
            omega
        simpa [report_failures] using this

/-- Claim C4: `admit` returns true whenever the state is closed or half-open;
when the state is open it returns true exactly when the elapsed monotonic
time since the last failure strictly exceeds the open duration, in which
case the state transitions to half-open; otherwise it returns false and
leaves every field unchanged. -/
theorem breaker_admit_c4 (cb : CircuitBreaker) (now : Int) :
    ((cb.state = .closed ∨ cb.state = .half_open) →
        on_execute_function now cb = (true, cb)) ∧
    (cb.state = .opened →
        ((on_execute_function now cb).1 = true ↔
            cb.timeout < now - cb.lastFailureTime) ∧
        (cb.timeout < now - cb.lastFailureTime →
            on_execute_function now cb =
              (true, { cb with state := .half_open })) ∧
        (¬ cb.timeout < now - cb.lastFailureTime →
            on_execute_function now cb = (false, cb))) := by
  unfold on_execute_function
  constructor
  · intro h
    rcases h with h | h <;> simp [h]
  · intro h
    by_cases ht : cb.timeout < now - cb.lastFailureTime <;> simp [h, ht]

/-- Concrete instantiation used by the witnesses: a freshly constructed
breaker named svc with threshold 2 and a 1000 ms open duration. -/
def cbFreshW : CircuitBreaker := mkBreaker "svc" 2 1000

theorem breaker_admit_c4_witness :
    on_execute_function 0 cbFreshW = (true, cbFreshW) :=
  (breaker_admit_c4 cbFreshW 0).1 (Or.inl rfl)

/-- Claim C5: from any reachable breaker whose threshold is positive, N
consecutive report_failure calls with no intervening success, N at least the
threshold, leave the breaker open; each call increments the failure count
and stamps the last failure instant with its monotonic now, and the
transition to open happens exactly on the first call whose resulting count
reaches the threshold. -/
theorem breaker_failures_c5 (cb : CircuitBreaker) (ts : List Int) (t : Int)
    (hreach : Reachable cb) (hpos : 1 ≤ cb.failureThreshold)
    (hN : cb.failureThreshold ≤ (ts.length : Int)) :
    (report_failures ts cb).state = .opened ∧
    ((on_failure t cb).failureCount = cb.failureCount + 1 ∧
      (on_failure t cb).lastFailureTime = t) ∧
    (cb.state ≠ .opened → cb.failureCount + 1 < cb.failureThreshold →
        (on_failure t cb).state = cb.state) ∧
    (cb.failureThreshold ≤ cb.failureCount + 1 →
        (on_failure t cb).state = .opened) := by
  have hnn := reachable_count_nonneg hreach
  refine ⟨?_, ⟨(on_failure_count t cb).1, (on_failure_count t cb).2.1⟩,
    ?_, on_failure_opens t cb⟩
  · apply report_failures_opens
    · omega
    · omega
  · intro hs hlt
    unfold on_failure
    split
    · rename_i hc
      exact absurd hc.1 (by omega)
    · rfl

theorem breaker_failures_c5_witness :
    (report_failures [5, 6] cbFreshW).state = .opened ∧
      (on_failure 5 cbFreshW).failureCount = cbFreshW.failureCount + 1 :=
  have h := breaker_failures_c5 cbFreshW [5, 6] 5
    (Reachable.init "svc" 2 1000) (by decide) (by decide)
  ⟨h.1, h.2.1.1⟩

/-- Model of `shield::retry_policy` (src/include/shield/retry.hpp):
`max_attempts_`, the exception-selection configuration
(`retry_on_all_exceptions_`, the optional `retry_predicate_`, the
`retryable_exceptions_` typeid list), the optional `retry_callback_`
observer and the backoff strategy, abstracted as its `calculate_delay`
function from attempt index to a delay in milliseconds. Exceptions are
modelled by their typeid hash, a natural number. -/
structure RetryPolicy where
  maxAttempts : Int
  retryOnAllExceptions : Bool
  hasPredicate : Bool
  pred : Nat → Int → Bool
  retryableExceptions : List Nat
  hasCallback : Bool
  backoff : Int → Int

/-- The builder `retry_policy::with_max_attempts` (retry.hpp lines
249-253). -/
def with_max_attempts (p : RetryPolicy) (attempts : Int) : RetryPolicy :=
  { p with maxAttempts := attempts }

/-- `retry_policy::should_retry` (retry.hpp lines 391-422): exhausted
attempts never retry; a present predicate takes precedence; then the
retry-on-all flag; then membership of the exception typeid in the
retryable list. -/
def should_retry (p : RetryPolicy) (e : Nat) (attempt : Int) : Bool :=
  if p.maxAttempts ≤ attempt then false
  else if p.hasPredicate then p.pred e attempt
  else if p.retryOnAllExceptions then true
  else p.retryableExceptions.contains e

/-- Observable events of one `retry_policy::run` call: an invocation of the
operation at an attempt index, an observer callback with the error, attempt
and planned delay, and a backoff sleep. -/
inductive RetryEvent
  | invoke (attempt : Int)
  | observe (e : Nat) (attempt : Int) (delay : Int)
  | sleep (delay : Int)
deriving DecidableEq, Repr

/-- Final outcome of one `retry_policy::run` call: a returned value, a
re-raised operation error (by typeid hash), or the synthesized
`std::runtime_error("Retry policy exhausted")` after the loop. -/
inductive RetryOutcome (α : Type)
  | ok (a : α)
  | raised (e : Nat)
  | exhausted
deriving DecidableEq, Repr

/-- The attempt loop of `retry_policy::run` (retry.hpp lines 328-361). The
operation is indexed by the attempt number and either returns a value or
raises an exception typeid. The fuel argument counts the loop-guard checks
still allowed: `run` enters with fuel `max_attempts`, matching the C++
`for (attempt = 1; attempt <= max_attempts_; ++attempt)` loop exactly, so
running out of fuel is precisely the fall-through to the synthesized
runtime error after the loop. -/
def run_loop {α : Type} (p : RetryPolicy) (op : Int → Except Nat α) :
    Nat → Int → RetryOutcome α × List RetryEvent
  | 0, _ => (.exhausted, [])
  | fuel + 1, attempt =>
    if p.maxAttempts < attempt then (.exhausted, []) else
    match op attempt with
    | .ok v => (.ok v, [.invoke attempt])
    | .error e =>
      if ¬ should_retry p e attempt then (.raised e, [.invoke attempt])
      else if attempt < p.maxAttempts then
        let d := p.backoff attempt
        let rest := run_loop p op fuel (attempt + 1)
        (rest.1,
          .invoke attempt ::
            ((if p.hasCallback then [RetryEvent.observe e attempt d] else [])
              ++ RetryEvent.sleep d :: rest.2))
      else (.raised e, [.invoke attempt])

/-- `retry_policy::run` itself: the loop entered at attempt 1. -/
def retry_run {α : Type} (p : RetryPolicy) (op : Int → Except Nat α) :
    RetryOutcome α × List RetryEvent :=
  run_loop p op p.maxAttempts.toNat 1

/-- Number of operation invocations recorded in a trace. -/
def count_invokes (tr : List RetryEvent) : Nat :=
  (tr.filter fun ev => match ev with
    | .invoke _ => true
    | _ => false).length

/-- Number of observer callbacks recorded in a trace. -/
def count_observes (tr : List RetryEvent) : Nat :=
  (tr.filter fun ev => match ev with
    | .observe _ _ _ => true
    | _ => false).length

/-- The event trace of a run whose every attempt fails under an all-errors
selection with an observer attached: starting at the given attempt, n
completed retries each contribute invocation, observer callback and sleep,
followed by the final invocation. -/
def failing_trace (e : Int → Nat) (d : Int → Int) :
    Int → Nat → List RetryEvent
  | attempt, 0 => [.invoke attempt]
  | attempt, n + 1 =>
      .invoke attempt :: .observe (e attempt) attempt (d attempt) ::
        .sleep (d attempt) :: failing_trace e d (attempt + 1) n

theorem failing_trace_counts (e : Int → Nat) (d : Int → Int) :
    ∀ (n : Nat) (attempt : Int),
      count_invokes (failing_trace e d attempt n) = n + 1 ∧
        count_observes (failing_trace e d attempt n) = n := by
  intro n
  induction n with
  | zero => intro attempt; simp [failing_trace, count_invokes, count_observes]
  | succ k ih =>
      intro attempt
      have h := ih (attempt + 1)
      simp only [count_invokes, count_observes] at h
      simp [failing_trace, count_invokes, count_observes, h.1, h.2]

/-- A retry policy with an all-errors selection (the default), an observer
attached, and the given max attempts and backoff; the unused predicate and
typeid list are arbitrary. -/
def allErrorsPolicy (m : Int) (q : Nat → Int → Bool) (l : List Nat)
    (d : Int → Int) : RetryPolicy :=
  { maxAttempts := m, retryOnAllExceptions := true, hasPredicate := false,
    pred := q, retryableExceptions := l, hasCallback := true, backoff := d }

theorem run_loop_allfail (p : RetryPolicy) (e : Int → Nat)
    (hall : p.retryOnAllExceptions = true) (hpred : p.hasPredicate = false)
    (hcb : p.hasCallback = true) :
    ∀ (fuel : Nat) (attempt : Int),
      attempt + (fuel : Int) = p.maxAttempts + 1 → 1 ≤ attempt →
      attempt ≤ p.maxAttempts →
      run_loop p (fun i => (Except.error (e i) : Except Nat Int)) fuel
          attempt =
        (.raised (e p.maxAttempts),
          failing_trace e p.backoff attempt (fuel - 1)) := by
  intro fuel
  induction fuel with
  | zero => intro attempt hsum h1 hle; omega
  | succ k ih =>
      intro attempt hsum h1 hle
      have hg : ¬ p.maxAttempts < attempt := by omega
      by_cases hmax : attempt = p.maxAttempts
      · have hk : k = 0 := by omega
        subst hk
        have hs : should_retry p (e attempt) attempt = false := by
          unfold should_retry
          rw [if_pos (by omega)]
        simp [run_loop, hg, hs, failing_trace, hmax]
      · have hlt : attempt < p.maxAttempts := lt_of_le_of_ne hle hmax
        obtain ⟨j, rfl⟩ : ∃ j, k = j + 1 := ⟨k - 1, by omega⟩
        have hrec := ih (attempt + 1) (by push_cast at hsum ⊢; omega)
          (by omega) (by omega)
        have hs : should_retry p (e attempt) attempt = true := by
          unfold should_retry
          rw [if_neg (by omega), if_neg (by simp [hpred]),
            if_pos (by simp [hall])]
        rw [run_loop]
        rw [if_neg hg]
        simp only [hs, hlt, hcb, hrec, failing_trace, Bool.not_true,
          Bool.false_eq_true, if_false, if_true, ite_true, ite_false,
          List.singleton_append, List.cons_append, List.nil_append]
        simp

/-- Claim C6: with a positive max-attempt count m, the default all-errors
selection and an observer attached, running an operation that fails on every
attempt invokes the operation exactly m times, fires the observer exactly
m − 1 times ordered by attempt index with the backoff sleep between each
failed attempt and the next invocation, and finally re-raises the error
observed on the last attempt, never the synthesized exhaustion error. -/
theorem retry_run_c6 (m : Int) (q : Nat → Int → Bool) (l : List Nat)
    (d : Int → Int) (e : Int → Nat) (hm : 1 ≤ m) :
    retry_run (allErrorsPolicy m q l d)
        (fun i => (Except.error (e i) : Except Nat Int)) =
      (.raised (e m), failing_trace e d 1 (m - 1).toNat) ∧
    (count_invokes
        (retry_run (allErrorsPolicy m q l d)
          (fun i => (Except.error (e i) : Except Nat Int))).2 : Int) = m ∧
    (count_observes
        (retry_run (allErrorsPolicy m q l d)
          (fun i => (Except.error (e i) : Except Nat Int))).2 : Int) =
      m - 1 := by
  have hrun := run_loop_allfail (allErrorsPolicy m q l d) e rfl rfl rfl
    m.toNat 1 (by simp [allErrorsPolicy]; omega) (by omega)
    (by simp [allErrorsPolicy]; omega)
  have htr : m.toNat - 1 = (m - 1).toNat := by omega
  rw [htr] at hrun
  have hmain : retry_run (allErrorsPolicy m q l d)
      (fun i => (Except.error (e i) : Except Nat Int)) =
      (.raised (e m), failing_trace e d 1 (m - 1).toNat) := by
    unfold retry_run
    simpa [allErrorsPolicy] using hrun
  have hcounts := failing_trace_counts e d (m - 1).toNat 1
  refine ⟨hmain, ?_, ?_⟩
  · rw [hmain]
    simp only [hcounts.1]
    omega
  · rw [hmain]
    simp only [hcounts.2]
    omega

/-- Concrete always-failing operation for the retry witnesses: attempt i
raises the exception whose typeid hash is i. -/
def opW : Int → Except Nat Int := fun i => Except.error i.toNat

theorem retry_run_c6_witness :
    retry_run (allErrorsPolicy 3 (fun _ _ => false) [] (fun i => 10 * i))
        opW =
      (.raised 3, failing_trace (fun i => i.toNat) (fun i => 10 * i) 1 2) :=
  (retry_run_c6 3 (fun _ _ => false) [] (fun i => 10 * i)
    (fun i => i.toNat) (by decide)).1

theorem run_loop_no_exhaust {α : Type} (p : RetryPolicy)
    (op : Int → Except Nat α) :
    ∀ (fuel : Nat) (attempt : Int),
      attempt + (fuel : Int) = p.maxAttempts + 1 → 1 ≤ attempt →
      attempt ≤ p.maxAttempts →
      (run_loop p op fuel attempt).1 ≠ .exhausted ∧
      ∀ e, (run_loop p op fuel attempt).1 = .raised e →
        ∃ i, attempt ≤ i ∧ i ≤ p.maxAttempts ∧ op i = .error e := by
  intro fuel
  induction fuel with
  | zero => intro attempt hsum h1 hle; omega
  | succ k ih =>
      intro attempt hsum h1 hle
      have hg : ¬ p.maxAttempts < attempt := by omega
      rw [run_loop]
      rw [if_neg hg]
      cases hop : op attempt with
      | ok v =>
          refine ⟨by simp, ?_⟩
          intro e h
          simp at h
      | error e0 =>
          by_cases hs : should_retry p e0 attempt = true
          · by_cases hlt : attempt < p.maxAttempts
            · have hrec := ih (attempt + 1) (by push_cast at hsum ⊢; omega)
                (by omega) (by omega)
              simp only [hs, hlt, Bool.not_true, Bool.false_eq_true,
                if_false, if_true, ite_true, ite_false]
              refine ⟨hrec.1, ?_⟩
              intro e h
              obtain ⟨i, hi1, hi2, hi3⟩ := hrec.2 e h
              exact ⟨i, by omega, hi2, hi3⟩
            · simp only [hs, hlt, Bool.not_true, Bool.false_eq_true,
                if_false, if_true, ite_true, ite_false]
              refine ⟨by simp, ?_⟩
              intro e h
              simp at h
              exact ⟨attempt, le_refl _, hle, by rw [hop, h]⟩
          · simp only [eq_false_of_ne_true hs, Bool.not_false, if_true,
              ite_true]
            refine ⟨by simp, ?_⟩
            intro e h
            simp at h
            exact ⟨attempt, le_refl _, hle, by rw [hop, h]⟩

/-- Claim C9: `retry_policy::run` raises the synthesized runtime error after
the loop exactly when max_attempts is non-positive (reachable through
with_max_attempts or the int constructor), in which case the operation is
invoked zero times; for every positive max_attempts that branch is
unreachable and any raised error came from an operation invocation. -/
theorem retry_run_c9 {α : Type} (p : RetryPolicy) (m : Int)
    (op : Int → Except Nat α) :
    (m ≤ 0 → retry_run (with_max_attempts p m) op = (.exhausted, [])) ∧
    (1 ≤ m →
      (retry_run (with_max_attempts p m) op).1 ≠ .exhausted ∧
      ∀ e, (retry_run (with_max_attempts p m) op).1 = .raised e →
        ∃ i, 1 ≤ i ∧ i ≤ m ∧ op i = .error e) := by
  constructor
  · intro hm
    have h0 : (with_max_attempts p m).maxAttempts.toNat = 0 := by
      simp [with_max_attempts]
      omega
    unfold retry_run
    rw [h0]
    rfl
  · intro hm
    have h := run_loop_no_exhaust (with_max_attempts p m) op
      (with_max_attempts p m).maxAttempts.toNat 1
      (by simp [with_max_attempts]; omega) (by omega)
      (by simp [with_max_attempts]; omega)
    unfold retry_run
    refine ⟨h.1, ?_⟩
    intro e he
    obtain ⟨i, hi1, hi2, hi3⟩ := h.2 e he
    exact ⟨i, hi1, by simpa [with_max_attempts] using hi2, hi3⟩

theorem retry_run_c9_witness :
    retry_run
        (with_max_attempts
          (allErrorsPolicy 3 (fun _ _ => false) [] (fun i => 10 * i)) 0)
        opW =
      (.exhausted, []) ∧
    (retry_run
        (with_max_attempts
          (allErrorsPolicy 3 (fun _ _ => false) [] (fun i => 10 * i)) 2)
        opW).1 ≠ .exhausted :=
  ⟨(retry_run_c9
      (allErrorsPolicy 3 (fun _ _ => false) [] (fun i => 10 * i)) 0
      opW).1 (by decide),
   ((retry_run_c9
      (allErrorsPolicy 3 (fun _ _ => false) [] (fun i => 10 * i)) 2
      opW).2 (by decide)).1⟩

/-- Runtime type tags for the type-erased `std::any` payloads: int, string,
or a user-defined type identified by an id together with whether it is
default-constructible. -/
inductive Ty
  | tInt
  | tString
  | tUser (id : Nat) (dc : Bool)
deriving DecidableEq, Repr

/-- Typed C++ values carried inside `std::any`. -/
inductive CppVal
  | vInt (n : Int)
  | vString (s : String)
  | vUser (id : Nat) (dc : Bool) (payload : Nat)
deriving DecidableEq, Repr

/-- The runtime type (typeid) of a stored value. -/
def tyOf : CppVal → Ty
  | .vInt _ => .tInt
  | .vString _ => .tString
  | .vUser i d _ => .tUser i d

/-- Whether `std::is_default_constructible_v<T>` holds for the modelled
type. -/
def Ty.is_default_constructible : Ty → Bool
  | .tUser _ dc => dc
  | _ => true

/-- The value `T{}` for a default-constructible type. -/
def Ty.defaultValue : Ty → CppVal
  | .tInt => .vInt 0
  | .tString => .vString ""
  | .tUser i d => .vUser i d 0

/-- `shield::fallback_type`: the enum of the current code
(src/src/fallback.cpp) has four members, including THROW. -/
inductive fallback_type
  | DEFAULT
  | SPECIFIC_VALUE
  | CALLABLE
  | THROW
deriving DecidableEq, Repr

/-- `shield::fallback_policy` (src/include/shield/fallback.hpp): the
variant tag, the type-erased `std::any` payload (possibly empty), and the
optional stored callable. The callable returns a `std::any` (possibly
empty) or raises an arbitrary error, modelled by its typeid hash; this also
covers objects not derived from `std::exception`, since `get_value` uses a
catch-all handler. -/
structure fallback_policy where
  fallbackType : fallback_type
  specificValue : Option CppVal
  fallbackCallable : Option (Unit → Except Nat (Option CppVal))

/-- `fallback_policy::with_default` (fallback.hpp lines 48-51). -/
def with_default : fallback_policy := ⟨.DEFAULT, none, none⟩

/-- `fallback_policy::with_value` (fallback.hpp lines 53-57). -/
def with_value (v : CppVal) : fallback_policy := ⟨.SPECIFIC_VALUE, some v, none⟩

/-- `fallback_policy::with_callable` / `with_typed_callable` (fallback.hpp
lines 59-75); the null-callable case is rejected at construction, so the
stored callable is always present. -/
def with_callable (f : Unit → Except Nat (Option CppVal)) : fallback_policy :=
  ⟨.CALLABLE, none, some f⟩

/-- `fallback_policy::with_throw` (src/src/fallback.cpp lines 19-22). -/
def with_throw : fallback_policy := ⟨.THROW, none, none⟩

/-- The body of `fallback_policy::get_value<T>` (fallback.hpp lines 77-124)
before its enclosing catch-all handler: DEFAULT yields `T{}` when T is
default-constructible, else no value; SPECIFIC_VALUE yields the stored
value exactly on a typeid match; CALLABLE invokes the callable, propagating
anything it raises, and yields its result exactly on a typeid match; any
other tag falls to the default switch case and yields no value. -/
def get_value_unguarded (p : fallback_policy) (t : Ty) :
    Except Nat (Option CppVal) :=
  match p.fallbackType with
  | .DEFAULT =>
      if t.is_default_constructible then .ok (some t.defaultValue)
      else .ok none
  | .SPECIFIC_VALUE =>
      match p.specificValue with
      | some v => if tyOf v = t then .ok (some v) else .ok none
      | none => .ok none
  | .CALLABLE =>
      match p.fallbackCallable with
      | some f =>
          match f () with
          | .error k => .error k
          | .ok (some v) => if tyOf v = t then .ok (some v) else .ok none
          | .ok none => .ok none
      | none => .ok none
  | .THROW => .ok none

/-- `fallback_policy::get_value<T>` (fallback.hpp lines 77-124): the
noexcept entry point, whose catch-all turns anything raised inside into no
value. -/
def get_value (p : fallback_policy) (t : Ty) : Option CppVal :=
  match get_value_unguarded p t with
  | .ok o => o
  | .error _ => none

/-- `fallback_policy::get_value_or` (fallback.hpp lines 126-135): the
produced value when there is one, else the supplied default. -/
def get_value_or (p : fallback_policy) (d : CppVal) : CppVal :=
  match get_value p (tyOf d) with
  | some v => v
  | none => d

/-- The three-way fallback result of the specification:
value / no value available / Raised(FallbackRaised). -/
inductive ProduceResult
  | value (v : CppVal)
  | noValue
  | raised
deriving DecidableEq, Repr

/-- Modelled from the spec: `produce<T>()`, the composite fallback
consultation of section 4.3. The Default, Value and Callable rows are
decided by `get_value` exactly as in src/include/shield/fallback.hpp; the
Raised(FallbackRaised) outcome of the Throw row is realized by the current
circuit header, which is absent from the sources (only src/src/fallback.cpp
with `with_throw`, shield::fallback_exception and the expectations in
test_circuit.cpp remain), and is modelled here as the spec states it: a
THROW policy yields Raised. -/
def produce (p : fallback_policy) (t : Ty) : ProduceResult :=
  if p.fallbackType = .THROW then .raised
  else
    match get_value p t with
    | some v => .value v
    | none => .noValue

/-- Claim C7: for every result type, produce follows the variant table —
Default yields the zero value when the type has one and otherwise no value;
Value yields the stored value exactly on a runtime type match and otherwise
no value; Callable invokes the function and yields its result on a type
match, no value on a mismatch, an empty result, or anything raised; Throw
yields Raised(FallbackRaised). -/
theorem fallback_produce_c7 :
    (∀ t, produce with_default t =
        if t.is_default_constructible then .value t.defaultValue
        else .noValue) ∧
    (∀ v t, produce (with_value v) t =
        if tyOf v = t then .value v else .noValue) ∧
    (∀ f t v, f () = .ok (some v) →
        produce (with_callable f) t =
          if tyOf v = t then .value v else .noValue) ∧
    (∀ f t, f () = .ok none → produce (with_callable f) t = .noValue) ∧
    (∀ f t k, f () = .error k → produce (with_callable f) t = .noValue) ∧
    (∀ t, produce with_throw t = .raised) := by
  refine ⟨?_, ?_, ?_, ?_, ?_, ?_⟩
  · intro t
    by_cases ht : t.is_default_constructible <;>
      simp [produce, with_default, get_value, get_value_unguarded, ht]
  · intro v t
    by_cases h : tyOf v = t <;>
      simp [produce, with_value, get_value, get_value_unguarded, h]
  · intro f t v hf
    by_cases h : tyOf v = t <;>
      simp [produce, with_callable, get_value, get_value_unguarded, hf, h]
  · intro f t hf
    simp [produce, with_callable, get_value, get_value_unguarded, hf]
  · intro f t k hf
    simp [produce, with_callable, get_value, get_value_unguarded, hf]
  · intro t
    simp [produce, with_throw]

/-- Concrete callable for the fallback witnesses: returns the int 5. -/
def cfW : Unit → Except Nat (Option CppVal) := fun _ => .ok (some (.vInt 5))

/-- Concrete callable for the fallback witnesses: raises the error whose
typeid hash is 9. -/
def cfThrowW : Unit → Except Nat (Option CppVal) := fun _ => .error 9

theorem fallback_produce_c7_witness :
    produce (with_callable cfW) .tInt = .value (.vInt 5) ∧
      produce (with_callable cfThrowW) .tInt = .noValue :=
  ⟨by simpa [tyOf] using fallback_produce_c7.2.2.1 cfW .tInt (.vInt 5) rfl,
   fallback_produce_c7.2.2.2.2.1 cfThrowW .tInt 9 rfl⟩

/-- Claim C10: `get_value` is total and never propagates an error — anything
raised inside, including errors not derived from std::exception and any
failed extraction, is turned into no value by the catch-all — and
consequently `get_value_or` always returns either a produced value or the
supplied default. -/
theorem fallback_total_c10 (p : fallback_policy) (t : Ty) (d : CppVal) :
    (∀ k, get_value_unguarded p t = .error k → get_value p t = none) ∧
    ((get_value p (tyOf d) = none ∧ get_value_or p d = d) ∨
      ∃ v, get_value p (tyOf d) = some v ∧ get_value_or p d = v) := by
  constructor
  · intro k hk
    simp [get_value, hk]
  · cases hv : get_value p (tyOf d) with
    | none => exact Or.inl ⟨rfl, by simp [get_value_or, hv]⟩
    | some v => exact Or.inr ⟨v, rfl, by simp [get_value_or, hv]⟩

theorem fallback_total_c10_witness :
    get_value (with_callable cfThrowW) .tInt = none ∧
      get_value_or (with_callable cfThrowW) (.vInt 4) = .vInt 4 := by
  have h := fallback_total_c10 (with_callable cfThrowW) .tInt (.vInt 4)
  refine ⟨h.1 9 rfl, ?_⟩
  rcases h.2 with ⟨_, h2⟩ | ⟨v, hv, _⟩
  · exact h2
  · exact absurd hv (by simp [get_value, get_value_unguarded, with_callable,
      cfThrowW])

/-- Outcome of one composed circuit run: a returned value, the generic
`std::runtime_error` thrown by the admission guard (carrying its message),
or a propagating user exception identified by its typeid hash. -/
inductive CircOutcome
  | ok (v : CppVal)
  | runtimeError (msg : String)
  | raised (k : Nat)
deriving DecidableEq, Repr

/-- Side effects of one composed circuit run, in order: invocation of the
operation, the breaker report made by the exit sentry, and a fallback
consultation (which the code on this path never performs). -/
inductive CircEvent
  | invokeOp
  | reportSuccess
  | reportFailure
  | consultFallback
deriving DecidableEq, Repr

/-- `circuit::run_without_retry_policy` as it stands in
src/include/shield/circuit.hpp lines 109-162 (the value-returning branch),
composed with the exit sentry `handle_function_exit` of
src/src/circuit/circuit.cpp lines 58-68. The itlib sentry runs on every
scope exit, so a run that did not set `succeeded` — including the
admission-denied throw and a propagating uncaught exception — reports a
failure to the breaker. `catchesK` is the `catch (const _Texcept&)` filter,
`alwaysRethrow` the `_AlwaysRethrowExceptions` template argument, `retTy`
the operation result type, and `fb` the fallback policy the circuit object
carries (src/src/circuit/circuit.cpp lines 33-41), which this code never
reads. The single `now` is the monotonic instant of the step. -/
def run_without_retry_policy (alwaysRethrow : Bool) (catchesK : Nat → Bool)
    (retTy : Ty) (fb : fallback_policy) (op : Except Nat CppVal) (now : Int)
    (cb : CircuitBreaker) : CircOutcome × CircuitBreaker × List CircEvent :=
  match on_execute_function now cb with
  | (admitted, cb1) =>
    if admitted = false then
      (.runtimeError "Circuit is OPEN", on_failure now cb1, [.reportFailure])
    else
      match op with
      | .ok v => (.ok v, on_success cb1, [.invokeOp, .reportSuccess])
      | .error e =>
        if catchesK e then
          if alwaysRethrow ∨ retTy.is_default_constructible = false then
            (.raised e, on_failure now cb1, [.invokeOp, .reportFailure])
          else
            (.ok retTy.defaultValue, on_failure now cb1,
              [.invokeOp, .reportFailure])
        else
          (.raised e, on_failure now cb1, [.invokeOp, .reportFailure])

/-- A breaker two failures past its threshold-2 limit, Open since instant 0
with a 10000 ms open duration, as the tests build for the fallback-on-open
scenarios. -/
def cbOpenT : CircuitBreaker :=
  { name := "fallback-test", failureThreshold := 2, timeout := 10000,
    failureCount := 2, state := .opened, lastFailureTime := 0 }

/-- A freshly created breaker with threshold 3 and a 10000 ms open
duration. -/
def cbClosedT : CircuitBreaker := mkBreaker "svc" 3 10000

/-- Claim C1, evaluated on the code at the failing input: with the breaker
Open and only 5000 of its 10000 ms elapsed, and a Value(999) fallback
attached, the run does not invoke the operation — but, contrary to the
claim and to test_circuit.cpp, it consults no fallback, throws the generic
std::runtime_error with message Circuit is OPEN instead of
open_circuit_exception, and the exit sentry calls report_failure, moving
failure_count from 2 to 3 and restamping last_failure_instant; the attached
fallback would have produced 999. -/
theorem circuit_c1_denied_eval :
    run_without_retry_policy false (fun _ => false) .tInt
        (with_value (.vInt 999)) (.ok (.vInt 42)) 5000 cbOpenT =
      (.runtimeError "Circuit is OPEN",
        { cbOpenT with failureCount := 3, lastFailureTime := 5000 },
        [.reportFailure]) ∧
    produce (with_value (.vInt 999)) .tInt = .value (.vInt 999) := by
  constructor
  · rfl
  · rfl

/-- Claim C2, evaluated on the code at the failing input: with K = the
typeid 3 and the operation raising typeid 7 after being admitted on a
Closed breaker, the error propagates unchanged and no fallback is
consulted, but — contrary to the claim — the exit sentry calls
report_failure, moving failure_count from 0 to 1 and stamping
last_failure_instant. -/
theorem circuit_c2_unhandled_eval :
    run_without_retry_policy false (fun k => k == 3) .tInt with_default
        (.error 7) 100 cbClosedT =
      (.raised 7,
        { cbClosedT with failureCount := 1, lastFailureTime := 100 },
        [.invokeOp, .reportFailure]) := by
  rfl

/-- Claim C3, evaluated on the code at the failing input: with K = the
typeid 3, the operation raising typeid 3, result type int and a Value(777)
fallback attached, report_failure is called as the claim says, but the run
returns the default-constructed 0 without ever consulting the fallback —
contrary to the claimed fallback-over-zero precedence and to
test_circuit.cpp — although the attached fallback would have produced
777. -/
theorem circuit_c3_handled_eval :
    run_without_retry_policy false (fun k => k == 3) .tInt
        (with_value (.vInt 777)) (.error 3) 100 cbClosedT =
      (.ok (.vInt 0),
        { cbClosedT with failureCount := 1, lastFailureTime := 100 },
        [.invokeOp, .reportFailure]) ∧
    produce (with_value (.vInt 777)) .tInt = .value (.vInt 777) := by
  constructor
  · rfl
  · rfl

/-- One registration of the process-wide registry. Instance identity of the
shared_ptr is modelled by a numeric id; the registry owns the breaker
state. -/
structure Registration where
  id : Nat
  breaker : CircuitBreaker
deriving DecidableEq, Repr

/-- The registry map of `circuit_breaker_manager`: the name-keyed entries
and the next fresh instance id. -/
structure Manager where
  nextId : Nat
  entries : List (String × Registration)
deriving DecidableEq, Repr

/-- An empty, lazily initialised registry. -/
def emptyManager : Manager := ⟨0, []⟩

/-- Lookup of `circuitBreakers.find(name)` over the entry list. -/
def find_by_name : List (String × Registration) → String → Option Registration
  | [], _ => none
  | en :: rest, name =>
      if en.1 = name then some en.2 else find_by_name rest name

/-- `circuitBreakers.find(name)` on the registry. -/
def find_entry (m : Manager) (name : String) : Option Registration :=
  find_by_name m.entries name

/-- Reading the breaker state behind an instance id in the entry list. -/
def read_by_id : List (String × Registration) → Nat → Option CircuitBreaker
  | [], _ => none
  | en :: rest, id =>
      if en.2.id = id then some en.2.breaker else read_by_id rest id

/-- Reading the breaker behind a returned reference: the registry entry
whose instance id matches. -/
def read_breaker (m : Manager) (id : Nat) : Option CircuitBreaker :=
  read_by_id m.entries id

/-- Applying a mutation to the breaker of the instance with the given id. -/
def mutate_list (id : Nat) (f : CircuitBreaker → CircuitBreaker) :
    List (String × Registration) → List (String × Registration)
  | [] => []
  | en :: rest =>
      (if en.2.id = id then (en.1, ⟨en.2.id, f en.2.breaker⟩) else en) ::
        mutate_list id f rest

/-- A mutation (report_success or report_failure) performed through a
returned reference: it updates the breaker state of that instance inside
the registry. -/
def mutate_breaker (m : Manager) (id : Nat)
    (f : CircuitBreaker → CircuitBreaker) : Manager :=
  { m with entries := mutate_list id f m.entries }

/-- The default `circuit_breaker::config`: threshold 5, 60 s open duration,
with the given name (src/include/shield/circuitbreaker.hpp lines 15-27). -/
def default_config (name : String) : CircuitBreaker := mkBreaker name 5 60000

/-- `detail::impl::circuit_breaker_manager::create`
(src/src/detail/circuit/circuitbreakermanager.cpp lines 29-48): when the
name is absent, create the instance, emplace it and return it through the
iterator obtained from the emplace; otherwise return the existing
instance. -/
def impl_create (m : Manager) (name : String) (cfg : CircuitBreaker) :
    Nat × Manager :=
  match find_entry m name with
  | some r => (r.id, m)
  | none =>
      (m.nextId,
        { nextId := m.nextId + 1,
          entries := (name, ⟨m.nextId, cfg⟩) :: m.entries })

/-- `detail::impl::circuit_breaker_manager::get` (same file, lines 50-63):
when the name is absent, fall through to `create` with a default config
carrying the name; otherwise return the existing instance. -/
def impl_get (m : Manager) (name : String) : Nat × Manager :=
  match find_entry m name with
  | some r => (r.id, m)
  | none => impl_create m name (default_config name)

/-- A registry call of either kind on the pImpl manager: create with a
config, or get by name. -/
def registry_call (isCreate : Bool) (m : Manager) (name : String)
    (cfg : CircuitBreaker) : Nat × Manager :=
  if isCreate then impl_create m name cfg else impl_get m name

/-- `shield::detail::circuit_breaker_manager::create` of the legacy manager
(src/src/circuit/circuitbreakermanager.cpp lines 12-24): when the name is
absent it emplaces a new breaker but then returns `iter->second` where
`iter` is still the pre-insertion end iterator — no valid instance, modelled
as none; when present it returns the found instance. -/
def legacy_create (m : Manager) (name : String) (cfg : CircuitBreaker) :
    Option Nat × Manager :=
  match find_entry m name with
  | some r => (some r.id, m)
  | none =>
      (none,
        { nextId := m.nextId + 1,
          entries := (name, ⟨m.nextId, cfg⟩) :: m.entries })

/-- `shield::detail::circuit_breaker_manager::get` of the legacy manager
(same file, lines 26-39): a missing name falls through to `create` with a
default config. -/
def legacy_get (m : Manager) (name : String) : Option Nat × Manager :=
  match find_entry m name with
  | some r => (some r.id, m)
  | none => legacy_create m name (default_config name)

theorem find_entry_mutate (m : Manager) (id : Nat)
    (f : CircuitBreaker → CircuitBreaker) :
    read_breaker (mutate_breaker m id f) id = (read_breaker m id).map f := by
  unfold read_breaker mutate_breaker
  rcases m with ⟨nid, l⟩
  simp only
  induction l with
  | nil => simp [mutate_list, read_by_id]
  | cons a rest ih =>
      by_cases h : a.2.id = id
      · simp [mutate_list, read_by_id, h]
      · simp [mutate_list, read_by_id, h, ih]

theorem impl_create_finds (m : Manager) (name : String)
    (cfg : CircuitBreaker) :
    ∃ r : Registration,
      find_entry (impl_create m name cfg).2 name = some r ∧
        r.id = (impl_create m name cfg).1 := by
  unfold impl_create
  cases hf : find_entry m name with
  | some r =>
      simp only [hf]
      exact ⟨r, rfl, rfl⟩
  | none =>
      simp only [hf]
      exact ⟨⟨m.nextId, cfg⟩, by simp [find_entry, find_by_name], rfl⟩

theorem impl_get_finds (m : Manager) (name : String) :
    ∃ r : Registration,
      find_entry (impl_get m name).2 name = some r ∧
        r.id = (impl_get m name).1 := by
  unfold impl_get
  cases hf : find_entry m name with
  | some r =>
      simp only [hf]
      exact ⟨r, rfl, rfl⟩
  | none =>
      simp only [hf]
      exact impl_create_finds m name (default_config name)

theorem registry_call_finds (k : Bool) (m : Manager) (name : String)
    (cfg : CircuitBreaker) :
    ∃ r : Registration,
      find_entry (registry_call k m name cfg).2 name = some r ∧
        r.id = (registry_call k m name cfg).1 := by
  cases k
  · simpa [registry_call] using impl_get_finds m name
  · simpa [registry_call] using impl_create_finds m name cfg

theorem registry_call_existing (k : Bool) (m : Manager) (name : String)
    (cfg : CircuitBreaker) (r : Registration)
    (h : find_entry m name = some r) :
    registry_call k m name cfg = (r.id, m) := by
  cases k <;> unfold registry_call impl_get impl_create <;> simp [h]

/-- Claim C8, evaluated on the code: in the pImpl registry any two create
or get calls with one name — in any order, including a first-ever call —
return the same instance, and a mutation through one returned reference is
visible when reading through the other; but in the legacy manager of
src/src/circuit/circuitbreakermanager.cpp a first-ever create stores the
new breaker yet returns the dereferenced pre-insertion end iterator instead
of that instance, which a subsequent get does return. -/
theorem registry_c8_eval :
    (∀ (k1 k2 : Bool) (m : Manager) (name : String)
        (cfg1 cfg2 : CircuitBreaker) (f : CircuitBreaker → CircuitBreaker),
      (registry_call k2 (registry_call k1 m name cfg1).2 name cfg2).1 =
          (registry_call k1 m name cfg1).1 ∧
      (registry_call k2 (registry_call k1 m name cfg1).2 name cfg2).2 =
          (registry_call k1 m name cfg1).2 ∧
      read_breaker
          (mutate_breaker
            (registry_call k2 (registry_call k1 m name cfg1).2 name cfg2).2
            (registry_call k1 m name cfg1).1 f)
          (registry_call k2 (registry_call k1 m name cfg1).2 name cfg2).1 =
        (read_breaker (registry_call k1 m name cfg1).2
            (registry_call k1 m name cfg1).1).map f) ∧
    ((legacy_create emptyManager "svc" (mkBreaker "svc" 2 10000)).1 =
        none ∧
      (legacy_get
          (legacy_create emptyManager "svc" (mkBreaker "svc" 2 10000)).2
          "svc").1 = some 0) := by
  constructor
  · intro k1 k2 m name cfg1 cfg2 f
    obtain ⟨r, hr, hid⟩ := registry_call_finds k1 m name cfg1
    have h2 := registry_call_existing k2
      (registry_call k1 m name cfg1).2 name cfg2 r hr
    rw [h2]
    refine ⟨hid, rfl, ?_⟩
    rw [hid]
    exact find_entry_mutate (registry_call k1 m name cfg1).2
      (registry_call k1 m name cfg1).1 f
  · exact ⟨rfl, rfl⟩
